import Mathlib

/-!
Verification of the ingestion-and-retrieval pipeline of the Node enterprise
AI template: the ingestion worker (`src/jobs/ingestion.worker.ts`), the chat
agent (`src/services/agent.service.ts`), the chat body validation
(`src/validations/agent.validation.ts`) and the upload service
(`src/services/file.service.ts` / upload service module).

External collaborators (object store, relational store, embedding and
generative model) are modelled as explicit state plus oracle functions: the
object store is a key/bytes association list, the relational store is lists
of File and Document rows, and each remote call is an `Except`-valued oracle
supplied in an environment record.  Machine floats of the embedding vectors
are modelled as rationals; the claims settled here depend only on the
ordering of distances, never on float rounding.
-/

/-! ## Chunker

Modelled from the spec: the worker delegates chunking to
`RecursiveCharacterTextSplitter({ chunkSize: 1000, chunkOverlap: 200 })` from
the `@langchain/textsplitters` package, whose implementation is not part of
the repository's files.  The chunker is therefore modelled from spec §4.2:
a deterministic sliding window of target length 1000 with each chunk after
the first repeating its predecessor's last 200 characters, hence a window
step of 800 characters.  Texts are modelled as lists of characters. -/

/-- Spec-modelled sliding-window chunker over characters: windows of length
1000 starting every 800 characters; a text of at most 1000 characters is a
single chunk. -/
def chunkChars (cs : List Char) : List (List Char) :=
  if cs.length ≤ 1000 then [cs]
  else cs.take 1000 :: chunkChars (cs.drop 800)
termination_by cs.length
decreasing_by
  simp only [List.length_drop]
  omega

/-- The chunker of the pipeline, on strings. -/
def chunkText (s : String) : List String :=
  (chunkChars s.data).map String.mk

/-- The last `n` characters of a chunk. -/
def lastChars (n : Nat) (l : List Char) : List Char :=
  l.drop (l.length - n)

/-- Concatenation of the non-overlapping portions of a chunk list: the whole
first chunk, then every later chunk with its first 200 (overlapping)
characters removed. -/
def dropOverlapConcat (chunks : List (List Char)) : List Char :=
  match chunks with
  | [] => []
  | c :: rest => c ++ (rest.map (List.drop 200)).flatten

/-! ## Data model

`File` and `Document` rows as the Prisma schema declares them
(`prisma/migrations`): `FileStatus` is
`PENDING | PROCESSING | COMPLETED | FAILED | DUPLICATE`, a `File` carries a
storage key, owner, MIME type, display name, nullable content hash,
visibility flag and status, and a `Document` row carries the chunk text,
metadata (original display name), owner, owning file and embedding. -/

inductive FileStatus where
  | PENDING
  | PROCESSING
  | COMPLETED
  | FAILED
  | DUPLICATE
deriving DecidableEq, Repr

structure FileRec where
  id : String
  fileKey : String
  userId : String
  mimeType : String
  originalName : String
  fileHash : Option String
  isPublic : Bool
  status : FileStatus
deriving DecidableEq, Repr

structure DocumentRow where
  content : String
  originalName : String
  userId : String
  fileId : String
  embedding : List Rat
deriving DecidableEq, Repr

/-- The relational store: the `File` table and the `Document` table. -/
structure Db where
  files : List FileRec
  documents : List DocumentRow
deriving DecidableEq, Repr

/-- Bytes of an uploaded object. -/
abbrev Bytes := List Nat

/-- World state threaded through the ingestion job: the relational store and
the object store's contents (key to bytes). -/
structure WState where
  db : Db
  s3 : List (String × Bytes)
deriving DecidableEq, Repr

/-- The object-store lookup by key. -/
def s3Lookup (s3 : List (String × Bytes)) (key : String) : Option Bytes :=
  (s3.find? (fun p => p.1 == key)).map (fun p => p.2)

/-- Removing an object from the object store (DeleteObjectCommand). -/
def s3Erase (s3 : List (String × Bytes)) (key : String) : List (String × Bytes) :=
  s3.filter (fun p => p.1 != key)

/-- The `prisma.file.findUnique({ where: { id } })` call. -/
def findFile (db : Db) (id : String) : Option FileRec :=
  db.files.find? (fun f => f.id == id)

/-- The row mapping a `prisma.file.update({ where: { id } })` performs. -/
def applyUpdate (db : Db) (id : String) (g : FileRec → FileRec) : Db :=
  { db with files := db.files.map (fun f => if f.id == id then g f else f) }

/-- The `prisma.file.update` call: updating a row that does not exist raises
(Prisma error P2025); otherwise the row is mapped through `g`. -/
def updateFileRecord (db : Db) (id : String) (g : FileRec → FileRec) :
    Except String Db :=
  if db.files.any (fun f => f.id == id) then .ok (applyUpdate db id g)
  else .error "Record to update not found."

/-- The `prisma.file.delete` call: deleting a missing row raises. -/
def deleteFileRecord (db : Db) (id : String) : Except String Db :=
  if db.files.any (fun f => f.id == id) then
    .ok { db with files := db.files.filter (fun f => f.id != id) }
  else .error "Record to delete does not exist."

/-- The worker's deduplication query
(`prisma.file.findFirst({ where: { userId, fileHash, status: COMPLETED,
id: { not: fileId } } })`). -/
def findDuplicate (db : Db) (userId fileHash fileId : String) : Option FileRec :=
  db.files.find? (fun f =>
    f.userId == userId && f.fileHash == some fileHash &&
    f.status == FileStatus.COMPLETED && f.id != fileId)

/-- The raw `INSERT INTO "Document"` the worker issues per chunk. -/
def insertDocument (db : Db) (d : DocumentRow) : Db :=
  { db with documents := db.documents ++ [d] }

/-! ## Ingestion worker

`processJob` of `src/jobs/ingestion.worker.ts`, translated step by step.
Remote calls are oracles in `IngestEnv`: a transient (non-404) S3 GET error
and an S3 DELETE error are injected as optional errors, the content hash,
the PDF/image text extraction and the per-chunk embedding call are
functions.  `processJobInner` is the body of the worker's `try` block;
`processJob` adds the `catch` block (best-effort `FAILED` update whose own
failure is swallowed, then re-raise). -/

structure IngestEnv where
  s3GetTransientError : Option String
  s3DeleteError : Option String
  sha256 : Bytes → String
  pdfExtractText : Bytes → Except String String
  imageDescribe : Bytes → Except String String
  utf8Decode : Bytes → String
  embedChunk : String → Except String (List Rat)

/-- Outcome of one run: the promise resolved (`success`) or rejected
(`raised`), with the resulting world state. -/
inductive JobResult where
  | success (st : WState)
  | raised (e : String) (st : WState)
deriving DecidableEq, Repr

/-- The embedding-and-insert loop of step 5/6 of the worker: one `embed`
call then one `INSERT INTO "Document"` per chunk, stopping at the first
embedding error (the rows already written stay). -/
def insertChunks (env : IngestEnv) (userId fileId originalName : String) :
    List String → Db → Db × Option String
  | [], db => (db, none)
  | c :: rest, db =>
    match env.embedChunk c with
    | .error e => (db, some e)
    | .ok v =>
      insertChunks env userId fileId originalName rest
        (insertDocument db
          { content := c, originalName := originalName, userId := userId,
            fileId := fileId, embedding := v })

/-- Body of the worker's `try` block. -/
def processJobInner (env : IngestEnv) (st : WState) (fileId : String) : JobResult :=
  match findFile st.db fileId with
  | none => .raised ("File record not found: " ++ fileId) st
  | some fileRecord =>
    match updateFileRecord st.db fileId
        (fun f => { f with status := FileStatus.PROCESSING }) with
    | .error e => .raised e st
    | .ok db1 =>
      let st1 : WState := { db := db1, s3 := st.s3 }
      match env.s3GetTransientError with
      | some e => .raised e st1
      | none =>
        match s3Lookup st1.s3 fileRecord.fileKey with
        | none =>
          match deleteFileRecord db1 fileId with
          | .error e => .raised e st1
          | .ok db2 => .success { st1 with db := db2 }
        | some buffer =>
          let fileHash := env.sha256 buffer
          match findDuplicate db1 fileRecord.userId fileHash fileId with
          | some _ =>
            match env.s3DeleteError with
            | some e => .raised e st1
            | none =>
              let st2 : WState :=
                { db := db1, s3 := s3Erase st1.s3 fileRecord.fileKey }
              match updateFileRecord st2.db fileId (fun f =>
                  { f with status := FileStatus.DUPLICATE,
                           fileHash := some fileHash }) with
              | .error e => .raised e st2
              | .ok db3 => .success { st2 with db := db3 }
          | none =>
            match updateFileRecord db1 fileId
                (fun f => { f with fileHash := some fileHash }) with
            | .error e => .raised e st1
            | .ok db2 =>
              let st2 : WState := { st1 with db := db2 }
              let textE : Except String String :=
                if fileRecord.mimeType == "application/pdf" then
                  env.pdfExtractText buffer
                else if fileRecord.mimeType.startsWith "image/" then
                  env.imageDescribe buffer
                else .ok (env.utf8Decode buffer)
              match textE with
              | .error e => .raised e st2
              | .ok text =>
                if text.trim == "" then
                  match updateFileRecord db2 fileId
                      (fun f => { f with status := FileStatus.FAILED }) with
                  | .error e => .raised e st2
                  | .ok db3 => .success { st2 with db := db3 }
                else
                  match insertChunks env fileRecord.userId fileId
                      fileRecord.originalName (chunkText text) db2 with
                  | (db3, some e) => .raised e { st2 with db := db3 }
                  | (db3, none) =>
                    match updateFileRecord db3 fileId
                        (fun f => { f with status := FileStatus.COMPLETED }) with
                    | .error e => .raised e { st2 with db := db3 }
                    | .ok db4 => .success { st2 with db := db4 }

/-- The whole job handler: the `try` body, and on a raised error the `catch`
block, which sets the File's status to `FAILED` best-effort (a failure of
that update is swallowed) and re-raises the original error. -/
def processJob (env : IngestEnv) (st : WState) (fileId : String) : JobResult :=
  match processJobInner env st fileId with
  | .success st' => .success st'
  | .raised e st' =>
    match updateFileRecord st'.db fileId
        (fun f => { f with status := FileStatus.FAILED }) with
    | .ok db2 => .raised e { st' with db := db2 }
    | .error _ => .raised e st'

/-! ## Retrieval (hybrid search)

The raw SQL of `chat` in `src/services/agent.service.ts`:
`SELECT ... FROM "Document" d LEFT JOIN "File" f ON d."fileId" = f.id
WHERE (d."userId" = $uid OR f."isPublic" = true) ORDER BY distance ASC
LIMIT 5`, embedded with its standard semantics: the left join pairs each
document row with the file row of its `fileId` (if any; file ids are
unique), the `WHERE` clause keeps a row without a file only through the
owner disjunct (SQL `NULL = true` is not true), and the ordering is by
ascending distance.  The store's distance computation
`d.embedding <=> $queryVector` is a per-row rational supplied as `dist`. -/

abbrev JoinedRow := DocumentRow × Option FileRec

/-- One retrieval query: left-join, authorization filter, ascending-distance
sort, `LIMIT 5`. -/
def retrieveQuery (docs : List DocumentRow) (files : List FileRec)
    (uid : String) (dist : DocumentRow → Rat) : List JoinedRow :=
  let joined := docs.map (fun d => (d, files.find? (fun f => f.id == d.fileId)))
  let visible := joined.filter (fun r =>
    r.1.userId == uid ||
      (match r.2 with
       | some f => f.isPublic
       | none => false))
  (List.insertionSort (fun a b : JoinedRow => dist a.1 ≤ dist b.1) visible).take 5

/-! ## Chat agent

`chat` of `src/services/agent.service.ts`.  The generative calls are
oracles in `ChatEnv`: the query-rewrite `generateText` outcome, the query
embedding, the per-key presigned-URL issuance and the final `streamText`
outcome.  `chat` guards on the last message's content being non-empty
(JavaScript falsiness of the empty string), rewrites the query only when
the conversation has more than one message and falls back to the raw last
message content when that rewrite call fails, retrieves, assembles
citations (a failed presigned URL becomes the sentinel "unavailable") and
streams the answer. -/

structure ChatMessage where
  role : String
  content : String
deriving DecidableEq, Repr

structure ChatEnv where
  rewriteResult : Except String String
  embedQuery : String → Except String (List Rat)
  docs : List DocumentRow
  files : List FileRec
  dist : List Rat → DocumentRow → Rat
  signUrl : String → Except String String
  streamModel : List ChatMessage → String → Except String String

/-- What `chat` resolves to: the search query it retrieved with, whether the
rewrite model was called, the retrieved rows, the assembled context and the
streamed answer. -/
structure ChatOutcome where
  searchQuery : String
  rewriteCalled : Bool
  rows : List JoinedRow
  context : String
  answer : String
deriving DecidableEq, Repr

/-- Step 1 of `chat`: the search query, and whether the rewrite model was
called.  With a single message the raw content is used and no model call is
made; otherwise the model is called and an error falls back to the raw
content. -/
def computeSearchQuery (rewriteResult : Except String String)
    (messages : List ChatMessage) (lastContent : String) : String × Bool :=
  if 1 < messages.length then
    match rewriteResult with
    | .ok t => (t, true)
    | .error _ => (lastContent, true)
  else (lastContent, false)

/-- One citation line of the context (step 5 of `chat`): presigned URL when
the row has a file key and issuance succeeds, the sentinel "unavailable"
otherwise, and the visibility label from the owning file. -/
def buildCitation (env : ChatEnv) (r : JoinedRow) : String :=
  let signedUrl :=
    match r.2 with
    | some f =>
      if f.fileKey != "" then
        match env.signUrl f.fileKey with
        | .ok u => u
        | .error _ => "unavailable"
      else "unavailable"
    | none => "unavailable"
  let isPub := match r.2 with
    | some f => f.isPublic
    | none => false
  let visibilityLabel := if isPub then "[Public Doc]" else "[User's Private Doc]"
  let originalName := match r.2 with
    | some f => f.originalName
    | none => ""
  "[Source: " ++ originalName ++ " | Link: " ++ signedUrl ++ " | Visibility: " ++
    visibilityLabel ++ "] \nContent: " ++ r.1.content

/-- The `chat` service call. -/
def chat (env : ChatEnv) (messages : List ChatMessage) (uid : String) :
    Except String ChatOutcome :=
  match messages.getLast? with
  | none => .error "Messages content is required"
  | some last =>
    if last.content == "" then .error "Messages content is required"
    else
      let q := computeSearchQuery env.rewriteResult messages last.content
      match env.embedQuery q.1 with
      | .error e => .error e
      | .ok emb =>
        let rows := retrieveQuery env.docs env.files uid (env.dist emb)
        let context := String.intercalate "\n\n" (rows.map (buildCitation env))
        match env.streamModel messages context with
        | .error e => .error e
        | .ok ans =>
          .ok { searchQuery := q.1, rewriteCalled := q.2, rows := rows,
                context := context, answer := ans }

/-! ## Chat body validation

`chatBodySchema` of `src/validations/agent.validation.ts`: a zod object
`{ messages: z.array(z.object({ role: z.enum(['user','assistant','system',
'data']), content: z.string() })).min(1) }`, embedded as a decidable check
over a small JSON value type.  zod accepts an object with the required keys
of the right types (unknown keys are stripped, which cannot reject). -/

inductive Json where
  | null
  | bool (b : Bool)
  | num (q : Rat)
  | str (s : String)
  | arr (elems : List Json)
  | obj (fields : List (String × Json))

/-- First binding of a key in a JSON object's field list. -/
def lookupField : List (String × Json) → String → Option Json
  | [], _ => none
  | (k, v) :: rest, key => if k == key then some v else lookupField rest key

/-- The zod `messageSchema`: an object whose `role` is one of the four enum
values and whose `content` is a string. -/
def isValidMessage (j : Json) : Bool :=
  match j with
  | .obj fields =>
    (match lookupField fields "role" with
     | some (.str r) =>
       r == "user" || r == "assistant" || r == "system" || r == "data"
     | _ => false)
    &&
    (match lookupField fields "content" with
     | some (.str _) => true
     | _ => false)
  | _ => false

/-- The zod `chatBodySchema`: an object whose `messages` is an array of
valid messages with at least one element. -/
def chatBodySchema (j : Json) : Bool :=
  match j with
  | .obj fields =>
    match lookupField fields "messages" with
    | some (.arr msgs) => decide (1 ≤ msgs.length) && msgs.all isValidMessage
    | _ => false
  | _ => false

/-! ## Upload service

`generateSignedUrl` of the upload service: MIME-type allow-list, 2MB size
cap, user-id guard, the role gate on the requested `isPublic` flag, filename
sanitization, the `PENDING` File reservation row, and the presigned PUT URL
(an oracle).  The generated row id and uuid are inputs (the store and uuid
module generate them). -/

inductive Role where
  | USER
  | ADMIN
  | CONTRIBUTOR
deriving DecidableEq, Repr

structure UserRec where
  id : String
  role : Role
deriving DecidableEq, Repr

def allowedFileTypes : List String :=
  ["image/jpeg", "image/png", "image/gif", "image/webp", "application/pdf",
   "text/plain", "text/markdown", "text/csv"]

/-- Filename sanitization: keep only characters in `[A-Za-z0-9.\-_]`. -/
def sanitizeFileName (s : String) : String :=
  String.mk (s.data.filter (fun c =>
    c.isAlpha || c.isDigit || c == '.' || c == '-' || c == '_'))

/-- The upload service's `generateSignedUrl`: returns the store after any
write, and either the error thrown or `(signedUrl, fileKey, fileId)`.  The
reservation row is created before the presigned URL is requested, so it
persists even when URL issuance fails. -/
def generateSignedUrl (signUrl : String → Except String String)
    (fileName fileType : String) (fileSize : Nat) (isPublic : Bool)
    (user : UserRec) (db : Db) (uuid newId : String) :
    Db × Except String (String × String × String) :=
  if !(allowedFileTypes.contains fileType) then
    (db, .error "Invalid file type. Only JPEG, PNG, GIF, WEBP, PDF, and TEXT files are allowed.")
  else if 2 * 1024 * 1024 < fileSize then
    (db, .error "File size must be less than 2MB.")
  else if user.id == "" then
    (db, .error "User ID is required for file upload.")
  else
    let finalIsPublic :=
      if isPublic then
        if user.role == Role.ADMIN || user.role == Role.CONTRIBUTOR then true
        else false
      else false
    let fileKey := "users/" ++ user.id ++ "/" ++ uuid ++ "-" ++ sanitizeFileName fileName
    let file : FileRec :=
      { id := newId, fileKey := fileKey, userId := user.id,
        mimeType := fileType, originalName := fileName, fileHash := none,
        isPublic := finalIsPublic, status := FileStatus.PENDING }
    let db' : Db := { db with files := db.files ++ [file] }
    match signUrl fileKey with
    | .error e => (db', .error e)
    | .ok url => (db', .ok (url, fileKey, newId))

/-! ## Concrete sample inputs

Closed inputs used by counterexamples and witnesses below. -/

/-- An ingestion environment whose remote calls all succeed trivially. -/
def trivIngestEnv : IngestEnv :=
  { s3GetTransientError := none, s3DeleteError := none,
    sha256 := fun _ => "h1", pdfExtractText := fun _ => .ok "",
    imageDescribe := fun _ => .ok "", utf8Decode := fun _ => "",
    embedChunk := fun _ => .ok [] }

/-- A world with no rows and no objects. -/
def emptyState : WState := { db := { files := [], documents := [] }, s3 := [] }

/-- A pending upload reservation. -/
def dupFileA : FileRec :=
  { id := "f1", fileKey := "k1", userId := "u1", mimeType := "text/plain",
    originalName := "a.txt", fileHash := none, isPublic := false,
    status := FileStatus.PENDING }

/-- An already-indexed file of the same owner with the same content hash. -/
def dupFileB : FileRec :=
  { id := "f2", fileKey := "k2", userId := "u1", mimeType := "text/plain",
    originalName := "b.txt", fileHash := some "h1", isPublic := false,
    status := FileStatus.COMPLETED }

/-- A world in which ingesting `f1` hits the deduplication branch. -/
def dupState : WState :=
  { db := { files := [dupFileA, dupFileB], documents := [] },
    s3 := [("k1", [1, 2, 3])] }

/-- The dedup world's environment with a failing S3 DeleteObject call. -/
def dupEnvDeleteFails : IngestEnv :=
  { trivIngestEnv with s3DeleteError := some "s3 delete failed" }

/-- An environment whose S3 GET fails transiently (non-404). -/
def netFailEnv : IngestEnv :=
  { trivIngestEnv with s3GetTransientError := some "network timeout" }

/-- A world holding only the pending reservation `f1` and no object. -/
def pendingState : WState :=
  { db := { files := [dupFileA], documents := [] }, s3 := [] }

/-- A document row owned by `u1`, with no file row. -/
def sampleDoc : DocumentRow :=
  { content := "The total budget for Q4 is $50,000.",
    originalName := "budget.pdf", userId := "u1", fileId := "f1",
    embedding := [] }

def rankDocNear : DocumentRow :=
  { content := "near", originalName := "a.txt", userId := "u1",
    fileId := "f1", embedding := [] }

def rankDocMid : DocumentRow :=
  { content := "mid", originalName := "a.txt", userId := "u1",
    fileId := "f1", embedding := [] }

def rankDocFar : DocumentRow :=
  { content := "far", originalName := "a.txt", userId := "u1",
    fileId := "f1", embedding := [] }

/-- A store-computed cosine distance assignment: 0.1, 0.5 and 0.9. -/
def rankDist : DocumentRow → Rat := fun d =>
  if d.content == "near" then 1 / 10
  else if d.content == "mid" then 1 / 2
  else 9 / 10

/-- A single-turn user message. -/
def wChatMsg : ChatMessage := { role := "user", content := "hello" }

/-- A chat environment whose query-rewrite call fails and whose other
remote calls succeed. -/
def wChatEnv : ChatEnv :=
  { rewriteResult := .error "rewrite failed", embedQuery := fun _ => .ok [],
    docs := [], files := [], dist := fun _ _ => 0,
    signUrl := fun _ => .ok "url", streamModel := fun _ _ => .ok "answer" }

/-! ## Chunker lemmas -/

theorem chunkChars_of_le {cs : List Char} (h : cs.length ≤ 1000) :
    chunkChars cs = [cs] := by
  rw [chunkChars]
  simp [h]

theorem chunkChars_of_gt {cs : List Char} (h : 1000 < cs.length) :
    chunkChars cs = cs.take 1000 :: chunkChars (cs.drop 800) := by
  rw [chunkChars]
  simp [Nat.not_le.mpr h]

theorem chunkChars_ne_nil (cs : List Char) : chunkChars cs ≠ [] := by
  by_cases h : cs.length ≤ 1000
  · rw [chunkChars_of_le h]; simp
  · rw [chunkChars_of_gt (Nat.not_le.mp h)]; simp

theorem chunkChars_head (cs : List Char) :
    (chunkChars cs).getD 0 [] = cs.take 1000 := by
  by_cases h : cs.length ≤ 1000
  · rw [chunkChars_of_le h]
    simp [List.take_of_length_le h]
  · rw [chunkChars_of_gt (Nat.not_le.mp h)]
    simp

theorem chunkChars_overlap (cs : List Char) :
    ∀ i, i + 1 < (chunkChars cs).length →
      ((chunkChars cs).getD (i + 1) []).take 200 =
        lastChars 200 ((chunkChars cs).getD i []) := by
  intro i hi
  by_cases h : cs.length ≤ 1000
  · rw [chunkChars_of_le h] at hi
    simp at hi
  · have h' : 1000 < cs.length := Nat.not_le.mp h
    rw [chunkChars_of_gt h'] at hi ⊢
    cases i with
    | zero =>
      have hhead : (chunkChars (cs.drop 800)).getD 0 [] = (cs.drop 800).take 1000 :=
        chunkChars_head (cs.drop 800)
      have hlen : (cs.take 1000).length = 1000 := by
        simp [List.length_take]
        omega
      simp only [List.getD_cons_succ, List.getD_cons_zero, hhead, lastChars, hlen,
        List.take_take, List.drop_take]
      norm_num
    | succ j =>
      have := chunkChars_overlap (cs.drop 800) j (by simpa using hi)
      simpa using this
termination_by cs.length
decreasing_by
  simp only [List.length_drop]
  omega

theorem chunkChars_flatten_drop (cs : List Char) :
    ((chunkChars cs).map (List.drop 200)).flatten = cs.drop 200 := by
  by_cases h : cs.length ≤ 1000
  · rw [chunkChars_of_le h]
    simp
  · have h' : 1000 < cs.length := Nat.not_le.mp h
    rw [chunkChars_of_gt h']
    simp only [List.map_cons, List.flatten_cons,
      chunkChars_flatten_drop (cs.drop 800)]
    rw [List.drop_take, List.drop_drop]
    have : (cs.drop 200).take 800 ++ (cs.drop 200).drop 800 = cs.drop 200 :=
      List.take_append_drop 800 (cs.drop 200)
    rw [show (800 : Nat) + 200 = 1000 from rfl]
    rw [show (1000 : Nat) - 200 = 800 from rfl]
    rw [show List.drop 1000 cs = (cs.drop 200).drop 800 by
      rw [List.drop_drop]]
    exact this
termination_by cs.length
decreasing_by
  simp only [List.length_drop]
  omega

theorem chunkChars_le_1000 (cs : List Char) :
    ∀ c ∈ chunkChars cs, c.length ≤ 1000 := by
  intro c hc
  by_cases h : cs.length ≤ 1000
  · rw [chunkChars_of_le h] at hc
    simp at hc
    subst hc
    exact h
  · have h' : 1000 < cs.length := Nat.not_le.mp h
    rw [chunkChars_of_gt h'] at hc
    rcases List.mem_cons.mp hc with rfl | hc
    · simp [List.length_take]
    · exact chunkChars_le_1000 (cs.drop 800) c hc
termination_by cs.length
decreasing_by
  simp only [List.length_drop]
  omega

/-- Claim C4: for every input of at least 1000 characters, the first 200
characters of each chunk after the first equal the last 200 characters of
its predecessor, and an 1800-character text yields exactly 2 chunks whose
second chunk's first 200 characters equal the first chunk's characters
[800, 1000). -/
theorem chunker_overlap_invariant (cs : List Char) (h : 1000 ≤ cs.length) :
    (∀ i, i + 1 < (chunkChars cs).length →
       ((chunkChars cs).getD (i + 1) []).take 200 =
         lastChars 200 ((chunkChars cs).getD i [])) ∧
    (cs.length = 1800 →
       (chunkChars cs).length = 2 ∧
       ((chunkChars cs).getD 1 []).take 200 =
         ((chunkChars cs).getD 0 []).drop 800) := by
  refine ⟨chunkChars_overlap cs, fun h18 => ?_⟩
  have hgt : 1000 < cs.length := by omega
  have hrest : (cs.drop 800).length ≤ 1000 := by
    simp [List.length_drop]
    omega
  rw [chunkChars_of_gt hgt, chunkChars_of_le hrest]
  refine ⟨rfl, ?_⟩
  simp only [List.getD_cons_succ, List.getD_cons_zero, List.getD_cons_zero,
    List.drop_take]

/-- Claim C4 witness: an 1800-character text. -/
theorem chunker_overlap_invariant_witness :
    (chunkChars (List.replicate 1800 'a')).length = 2 ∧
    ((chunkChars (List.replicate 1800 'a')).getD 1 []).take 200 =
      ((chunkChars (List.replicate 1800 'a')).getD 0 []).drop 800 :=
  (chunker_overlap_invariant (List.replicate 1800 'a')
      (le_of_le_of_eq (by norm_num) (List.length_replicate 1800 'a').symm)).2
    (List.length_replicate 1800 'a')

/-- Claim C5: for every input text, the whole first chunk followed by every
later chunk minus its 200 overlapping characters reconstructs the input
exactly, and no chunk exceeds 1000 characters. -/
theorem chunker_coverage_and_bound (cs : List Char) :
    dropOverlapConcat (chunkChars cs) = cs ∧
    ∀ c ∈ chunkChars cs, c.length ≤ 1000 := by
  refine ⟨?_, chunkChars_le_1000 cs⟩
  by_cases h : cs.length ≤ 1000
  · rw [chunkChars_of_le h]
    simp [dropOverlapConcat]
  · have h' : 1000 < cs.length := Nat.not_le.mp h
    rw [chunkChars_of_gt h']
    simp only [dropOverlapConcat, chunkChars_flatten_drop (cs.drop 800)]
    rw [List.drop_drop]
    rw [show (800 : Nat) + 200 = 1000 from rfl]
    exact List.take_append_drop 1000 cs

/-! ## Store lemmas -/

theorem findFile_some_any {db : Db} {id : String} {fr : FileRec}
    (h : findFile db id = some fr) :
    db.files.any (fun f => f.id == id) = true := by
  rcases List.any_eq_true.mpr ⟨fr, List.mem_of_find?_eq_some h, List.find?_some h⟩ with h'
  exact h'

theorem findFile_none_any {db : Db} {id : String}
    (h : findFile db id = none) :
    db.files.any (fun f => f.id == id) = false :=
  List.any_eq_false.mpr (List.find?_eq_none.mp h)

theorem updateFileRecord_ok {db : Db} {id : String} {fr : FileRec}
    (g : FileRec → FileRec) (h : findFile db id = some fr) :
    updateFileRecord db id g = .ok (applyUpdate db id g) := by
  simp [updateFileRecord, findFile_some_any h]

theorem updateFileRecord_error {db : Db} {id : String}
    (g : FileRec → FileRec) (h : findFile db id = none) :
    updateFileRecord db id g = .error "Record to update not found." := by
  simp [updateFileRecord, findFile_none_any h]

theorem find?_map_update (files : List FileRec) (id : String)
    (g : FileRec → FileRec) (hg : ∀ f, (g f).id = f.id) :
    (files.map (fun f => if f.id == id then g f else f)).find?
        (fun f => f.id == id) =
      (files.find? (fun f => f.id == id)).map
        (fun f => if f.id == id then g f else f) := by
  induction files with
  | nil => rfl
  | cons a l ih =>
    simp only [List.map_cons]
    by_cases h : a.id = id
    · have hb : (a.id == id) = true := beq_iff_eq.mpr h
      rw [if_pos hb]
      rw [List.find?_cons_of_pos _ (by simp [hg a, h])]
      simp [List.find?_cons, hb]
      rw [if_pos h]
    · have hb : (a.id == id) = false := beq_eq_false_iff_ne.mpr h
      rw [if_neg (by simp [hb])]
      rw [List.find?_cons_of_neg _ (by simp [hb]),
        List.find?_cons_of_neg _ (by simp [hb])]
      exact ih

theorem findFile_applyUpdate {db : Db} {id : String} {fr : FileRec}
    (g : FileRec → FileRec) (h : findFile db id = some fr)
    (hg : ∀ f, (g f).id = f.id) :
    findFile (applyUpdate db id g) id = some (g fr) := by
  simp only [findFile] at h
  have hbeq := List.find?_some h
  simp only [findFile, applyUpdate]
  rw [find?_map_update db.files id g hg, h]
  simp [hbeq]
  intro hc
  exact absurd (beq_iff_eq.mp hbeq) hc

theorem find?_dup_update (files : List FileRec) (fileId : String)
    (g : FileRec → FileRec)
    (p : FileRec → Bool) (hp : ∀ f, p f = true → (f.id == fileId) = false)
    (hpg : ∀ f, (f.id == fileId) = true → p (g f) = false) :
    (files.map (fun f => if f.id == fileId then g f else f)).find? p =
      files.find? p := by
  induction files with
  | nil => rfl
  | cons a l ih =>
    simp only [List.map_cons]
    by_cases h : a.id = fileId
    · have hb : (a.id == fileId) = true := beq_iff_eq.mpr h
      rw [if_pos hb]
      have hpa : p a = false := by
        cases hpa : p a with
        | false => rfl
        | true => rw [hp a hpa] at hb; cases hb
      rw [List.find?_cons_of_neg _ (by rw [hpg a hb]; simp),
        List.find?_cons_of_neg _ (by rw [hpa]; simp)]
      exact ih
    · have hb : (a.id == fileId) = false := beq_eq_false_iff_ne.mpr h
      rw [if_neg (by simp [hb])]
      cases hpa : p a with
      | true =>
        rw [List.find?_cons_of_pos _ hpa, List.find?_cons_of_pos _ hpa]
      | false =>
        rw [List.find?_cons_of_neg _ (by simp [hpa]),
          List.find?_cons_of_neg _ (by simp [hpa])]
        exact ih

theorem findDuplicate_applyUpdate (db : Db) (fileId uid hash : String)
    (g : FileRec → FileRec) (hg : ∀ f, (g f).id = f.id) :
    findDuplicate (applyUpdate db fileId g) uid hash fileId =
      findDuplicate db uid hash fileId := by
  simp only [findDuplicate, applyUpdate]
  apply find?_dup_update db.files fileId g
  · intro f hpf
    have hne : (f.id != fileId) = true :=
      (((Bool.and_eq_true _ _).mp hpf).2)
    rw [bne_iff_ne] at hne
    exact beq_eq_false_iff_ne.mpr hne
  · intro f hid
    have hgid : (g f).id = fileId := by rw [hg f]; exact beq_iff_eq.mp hid
    have : ((g f).id != fileId) = false := by
      simp [bne_iff_ne, hgid]
    simp [this]

theorem s3Lookup_s3Erase (s3 : List (String × Bytes)) (key : String) :
    s3Lookup (s3Erase s3 key) key = none := by
  have hfind : (s3Erase s3 key).find? (fun p => p.1 == key) = none := by
    rw [List.find?_eq_none]
    intro p hp
    have h2 := (List.mem_filter.mp hp).2
    rw [bne_iff_ne] at h2
    simp [h2]
  simp [s3Lookup, hfind]

/-- Claim C2 (amended): a job whose File row no longer exists does not
terminate successfully; it raises "File record not found", with the
best-effort `FAILED` update swallowed (the row is gone) and the original
error re-raised unchanged. -/
theorem missing_file_raises_not_noop (env : IngestEnv) (st : WState)
    (fileId : String) (h : findFile st.db fileId = none) :
    processJob env st fileId =
      .raised ("File record not found: " ++ fileId) st := by
  simp only [processJob, processJobInner, h, updateFileRecord_error _ h]

/-- Claim C2 counterexample: with the File row absent the job rejects
instead of terminating successfully as a no-op. -/
theorem missing_file_counterexample :
    processJob trivIngestEnv emptyState "f1" =
      .raised "File record not found: f1" emptyState := by
  decide

/-- Claim C2 witness. -/
theorem missing_file_raises_not_noop_witness :
    processJob trivIngestEnv emptyState "f1" =
      .raised ("File record not found: " ++ "f1") emptyState :=
  missing_file_raises_not_noop trivIngestEnv emptyState "f1" rfl

/-- Claim C8: whenever the try-body raises, the handler re-raises exactly
the original error; the `FAILED` status update is best-effort — when the
row is gone its failure is swallowed and the state is untouched, and when
the row exists the row ends with status `FAILED`. -/
theorem failure_sets_failed_best_effort_and_rethrows
    (env : IngestEnv) (st : WState) (fileId : String) (e : String)
    (st' : WState) (h : processJobInner env st fileId = .raised e st') :
    (findFile st'.db fileId = none →
       processJob env st fileId = .raised e st') ∧
    (∀ fr, findFile st'.db fileId = some fr →
       processJob env st fileId =
         .raised e { db := applyUpdate st'.db fileId (fun f => { f with status := FileStatus.FAILED }), s3 := st'.s3 } ∧
       findFile (applyUpdate st'.db fileId (fun f => { f with status := FileStatus.FAILED })) fileId =
         some { fr with status := FileStatus.FAILED }) := by
  constructor
  · intro hn
    simp only [processJob, h, updateFileRecord_error _ hn]
  · intro fr hs
    refine ⟨?_, ?_⟩
    · simp only [processJob, h, updateFileRecord_ok _ hs]
    · exact findFile_applyUpdate _ hs (fun f => rfl)

/-- Claim C8 witness: a transient S3 GET error. -/
theorem failure_sets_failed_best_effort_and_rethrows_witness :
    processJob netFailEnv pendingState "f1" =
      .raised "network timeout"
        { db := applyUpdate { files := [{ dupFileA with status := FileStatus.PROCESSING }], documents := [] } "f1" (fun f => { f with status := FileStatus.FAILED }), s3 := [] } ∧
    findFile (applyUpdate { files := [{ dupFileA with status := FileStatus.PROCESSING }], documents := [] } "f1" (fun f => { f with status := FileStatus.FAILED })) "f1" =
      some { dupFileA with status := FileStatus.FAILED } :=
  (failure_sets_failed_best_effort_and_rethrows netFailEnv pendingState "f1"
      "network timeout"
      { db := { files := [{ dupFileA with status := FileStatus.PROCESSING }], documents := [] }, s3 := [] }
      (by decide)).2
    { dupFileA with status := FileStatus.PROCESSING } (by decide)

/-- Claim C3 (amended): on a dedup hit, when the S3 delete succeeds the
object is removed, the row ends `DUPLICATE` with the hash stored and the
job succeeds; but when the S3 delete errors, the error propagates — the
delete is not best-effort — and the job ends with status `FAILED` and the
object still present. -/
theorem dedup_delete_error_propagates
    (env : IngestEnv) (st : WState) (fileId : String) (fr d : FileRec)
    (buf : Bytes)
    (hfind : findFile st.db fileId = some fr)
    (hget : env.s3GetTransientError = none)
    (hobj : s3Lookup st.s3 fr.fileKey = some buf)
    (hdup : findDuplicate st.db fr.userId (env.sha256 buf) fileId = some d) :
    (env.s3DeleteError = none →
       processJob env st fileId =
         .success { db := applyUpdate (applyUpdate st.db fileId (fun f => { f with status := FileStatus.PROCESSING })) fileId (fun f => { f with status := FileStatus.DUPLICATE, fileHash := some (env.sha256 buf) }), s3 := s3Erase st.s3 fr.fileKey } ∧
       s3Lookup (s3Erase st.s3 fr.fileKey) fr.fileKey = none ∧
       findFile (applyUpdate (applyUpdate st.db fileId (fun f => { f with status := FileStatus.PROCESSING })) fileId (fun f => { f with status := FileStatus.DUPLICATE, fileHash := some (env.sha256 buf) })) fileId =
         some { fr with status := FileStatus.DUPLICATE, fileHash := some (env.sha256 buf) }) ∧
    (∀ e, env.s3DeleteError = some e →
       processJob env st fileId =
         .raised e { db := applyUpdate (applyUpdate st.db fileId (fun f => { f with status := FileStatus.PROCESSING })) fileId (fun f => { f with status := FileStatus.FAILED }), s3 := st.s3 } ∧
       findFile (applyUpdate (applyUpdate st.db fileId (fun f => { f with status := FileStatus.PROCESSING })) fileId (fun f => { f with status := FileStatus.FAILED })) fileId =
         some { fr with status := FileStatus.FAILED }) := by
  have h1 : updateFileRecord st.db fileId (fun f => { f with status := FileStatus.PROCESSING }) = .ok (applyUpdate st.db fileId (fun f => { f with status := FileStatus.PROCESSING })) :=
    updateFileRecord_ok _ hfind
  have hfind1 : findFile (applyUpdate st.db fileId (fun f => { f with status := FileStatus.PROCESSING })) fileId = some { fr with status := FileStatus.PROCESSING } :=
    findFile_applyUpdate _ hfind (fun f => rfl)
  have hdup1 : findDuplicate (applyUpdate st.db fileId (fun f => { f with status := FileStatus.PROCESSING })) fr.userId (env.sha256 buf) fileId = some d := by
    rw [findDuplicate_applyUpdate st.db fileId fr.userId (env.sha256 buf)
      (fun f => { f with status := FileStatus.PROCESSING }) (fun f => rfl)]
    exact hdup
  refine ⟨fun hdel => ?_, fun e hdel => ?_⟩
  · refine ⟨?_, s3Lookup_s3Erase st.s3 fr.fileKey, ?_⟩
    · simp only [processJob, processJobInner, hfind, h1, hget, hobj, hdup1,
        hdel, updateFileRecord_ok _ hfind1]
    · have h2 := findFile_applyUpdate
        (fun f => { f with status := FileStatus.DUPLICATE, fileHash := some (env.sha256 buf) })
        hfind1 (fun f => rfl)
      exact h2
  · refine ⟨?_, ?_⟩
    · simp only [processJob, processJobInner, hfind, h1, hget, hobj, hdup1,
        hdel, updateFileRecord_ok _ hfind1]
    · have h3 := findFile_applyUpdate
        (fun f => { f with status := FileStatus.FAILED }) hfind1 (fun f => rfl)
      exact h3

/-- Claim C3 counterexample: on a dedup hit with a failing S3 delete, the
job does not end `DUPLICATE` and does not succeed — it ends `FAILED` and
re-raises the delete error. -/
theorem dedup_delete_error_counterexample :
    processJob dupEnvDeleteFails dupState "f1" =
      .raised "s3 delete failed"
        { db := { files := [{ dupFileA with status := FileStatus.FAILED }, dupFileB], documents := [] }, s3 := [("k1", [1, 2, 3])] } := by
  decide

/-- Claim C3 witness: the failing-delete branch at a concrete dedup hit. -/
theorem dedup_delete_error_propagates_witness :
    processJob dupEnvDeleteFails dupState "f1" =
      .raised "s3 delete failed"
        { db := applyUpdate (applyUpdate dupState.db "f1" (fun f => { f with status := FileStatus.PROCESSING })) "f1" (fun f => { f with status := FileStatus.FAILED }), s3 := dupState.s3 } ∧
    findFile (applyUpdate (applyUpdate dupState.db "f1" (fun f => { f with status := FileStatus.PROCESSING })) "f1" (fun f => { f with status := FileStatus.FAILED })) "f1" =
      some { dupFileA with status := FileStatus.FAILED } :=
  (dedup_delete_error_propagates dupEnvDeleteFails dupState "f1" dupFileA
      dupFileB [1, 2, 3] (by decide) rfl (by decide) (by decide)).2
    "s3 delete failed" rfl

/-- Claim C1: every row the retrieval query returns is owned by the
querying user or belongs to a file whose `isPublic` flag is true; no
returned chunk has a different owner and a non-public owning file. -/
theorem retrieval_access_control (docs : List DocumentRow)
    (files : List FileRec) (uid : String) (dist : DocumentRow → Rat)
    (r : JoinedRow) (hr : r ∈ retrieveQuery docs files uid dist) :
    r.1.userId = uid ∨
      ∃ f, files.find? (fun g => g.id == r.1.fileId) = some f ∧
        f.isPublic = true := by
  simp only [retrieveQuery] at hr
  have h1 := List.mem_of_mem_take hr
  rw [List.mem_insertionSort] at h1
  rw [List.mem_filter] at h1
  obtain ⟨hmem, hp⟩ := h1
  rw [List.mem_map] at hmem
  obtain ⟨d, hd, hr2⟩ := hmem
  subst hr2
  simp only at hp
  rcases (Bool.or_eq_true _ _).mp hp with hu | hv
  · left
    exact beq_iff_eq.mp hu
  · right
    cases hfind : files.find? (fun f => f.id == d.fileId) with
    | none =>
      rw [hfind] at hv
      simp at hv
    | some f =>
      rw [hfind] at hv
      simp only at hv
      exact ⟨f, rfl, hv⟩

/-- Claim C1 witness: a single owned chunk with no file row. -/
theorem retrieval_access_control_witness :
    (sampleDoc, (none : Option FileRec)).1.userId = "u1" ∨
      ∃ f, ([] : List FileRec).find?
          (fun g => g.id == (sampleDoc, (none : Option FileRec)).1.fileId) =
            some f ∧ f.isPublic = true :=
  retrieval_access_control [sampleDoc] [] "u1" (fun _ => 0)
    (sampleDoc, none) (by decide)

/-- Claim C6: the retrieval query's result is ordered by ascending distance
and has at most 5 elements; in particular three chunks at distances 0.1,
0.5 and 0.9 come back in that ascending order. -/
theorem retrieval_ranked_ascending_limit5 :
    (∀ (docs : List DocumentRow) (files : List FileRec) (uid : String)
       (dist : DocumentRow → Rat),
       List.Sorted (fun a b : JoinedRow => dist a.1 ≤ dist b.1)
         (retrieveQuery docs files uid dist) ∧
       (retrieveQuery docs files uid dist).length ≤ 5) ∧
    retrieveQuery [rankDocFar, rankDocNear, rankDocMid] [] "u1" rankDist =
      [(rankDocNear, none), (rankDocMid, none), (rankDocFar, none)] := by
  constructor
  · intro docs files uid dist
    constructor
    · simp only [retrieveQuery]
      apply List.Pairwise.sublist (List.take_sublist _ _)
      exact @List.sorted_insertionSort JoinedRow
        (fun a b => dist a.1 ≤ dist b.1) (fun a b => inferInstance)
        ⟨fun a b => le_total (dist a.1) (dist b.1)⟩
        ⟨fun a b c hab hbc => le_trans hab hbc⟩ _
    · simp only [retrieveQuery]
      exact List.length_take_le _ _
  · have hmn : ¬ ("mid" : String) = "near" := by decide
    have hfn : ¬ ("far" : String) = "near" := by decide
    have hfm : ¬ ("far" : String) = "mid" := by decide
    norm_num [retrieveQuery, rankDist, rankDocNear, rankDocMid, rankDocFar,
      List.insertionSort, List.orderedInsert, hmn, hfn, hfm]

/-- The citation builder ignores the rewrite oracle. -/
theorem buildCitation_rewriteResult (env : ChatEnv)
    (res : Except String String) :
    buildCitation { env with rewriteResult := res } = buildCitation env := by
  funext r
  rfl

/-- Claim C7: with a single-message conversation the search query is the
last message's content and the rewrite model is not called (the outcome is
independent of the rewrite oracle); with a longer conversation whose
rewrite call fails, the query falls back to the raw last-message content
and `chat` behaves exactly as if the rewrite had returned that content —
the failure does not fail the chat request. -/
theorem chat_rewrite_skip_and_fallback
    (env : ChatEnv) (messages : List ChatMessage) (uid : String)
    (last : ChatMessage) (hlast : messages.getLast? = some last)
    (hne : last.content ≠ "") :
    (messages.length = 1 →
       computeSearchQuery env.rewriteResult messages last.content =
         (last.content, false) ∧
       ∀ res, chat { env with rewriteResult := res } messages uid =
         chat env messages uid) ∧
    (∀ e, env.rewriteResult = .error e → 1 < messages.length →
       computeSearchQuery env.rewriteResult messages last.content =
         (last.content, true) ∧
       chat env messages uid =
         chat { env with rewriteResult := .ok last.content } messages uid) := by
  have hbne : (last.content == "") = false := beq_eq_false_iff_ne.mpr hne
  constructor
  · intro hlen
    have hq : ∀ res : Except String String,
        computeSearchQuery res messages last.content = (last.content, false) := by
      intro res
      simp [computeSearchQuery, hlen]
    refine ⟨hq env.rewriteResult, ?_⟩
    intro res
    simp only [chat, hlast, hbne, hq, buildCitation_rewriteResult]
  · intro e herr hlen
    have h1 : computeSearchQuery env.rewriteResult messages last.content =
        (last.content, true) := by
      simp [computeSearchQuery, hlen, herr]
    have h2 : computeSearchQuery (Except.ok last.content) messages
        last.content = (last.content, true) := by
      simp [computeSearchQuery, hlen]
    refine ⟨h1, ?_⟩
    simp only [chat, hlast, hbne, h1, h2, buildCitation_rewriteResult]

/-- Claim C7 witness: a one-message conversation under an environment whose
rewrite oracle fails. -/
theorem chat_rewrite_skip_and_fallback_witness :
    computeSearchQuery wChatEnv.rewriteResult [wChatMsg] wChatMsg.content =
      (wChatMsg.content, false) ∧
    ∀ res, chat { wChatEnv with rewriteResult := res } [wChatMsg] "u1" =
      chat wChatEnv [wChatMsg] "u1" :=
  (chat_rewrite_skip_and_fallback wChatEnv [wChatMsg] "u1" wChatMsg rfl
      (by decide)).1 rfl

/-- Shape characterization of the zod message schema. -/
theorem isValidMessage_iff (m : Json) :
    isValidMessage m = true ↔
      ∃ mfields role content,
        m = Json.obj mfields ∧
        lookupField mfields "role" = some (Json.str role) ∧
        (role = "user" ∨ role = "assistant" ∨ role = "system" ∨
          role = "data") ∧
        lookupField mfields "content" = some (Json.str content) := by
  cases m with
  | obj fields =>
    simp only [isValidMessage, Bool.and_eq_true]
    constructor
    · rintro ⟨hrole, hcontent⟩
      cases hr : lookupField fields "role" with
      | none => rw [hr] at hrole; cases hrole
      | some v =>
        cases v with
        | str r =>
          rw [hr] at hrole
          simp only at hrole
          cases hc : lookupField fields "content" with
          | none => rw [hc] at hcontent; cases hcontent
          | some w =>
            cases w with
            | str c =>
              refine ⟨fields, r, c, rfl, hr, ?_, hc⟩
              simpa [beq_iff_eq, or_assoc] using hrole
            | null => rw [hc] at hcontent; cases hcontent
            | bool b => rw [hc] at hcontent; cases hcontent
            | num q => rw [hc] at hcontent; cases hcontent
            | arr l => rw [hc] at hcontent; cases hcontent
            | obj o => rw [hc] at hcontent; cases hcontent
        | null => rw [hr] at hrole; cases hrole
        | bool b => rw [hr] at hrole; cases hrole
        | num q => rw [hr] at hrole; cases hrole
        | arr l => rw [hr] at hrole; cases hrole
        | obj o => rw [hr] at hrole; cases hrole
    · rintro ⟨mfields, role, content, hm, hr, hrole, hc⟩
      cases hm
      rw [hr, hc]
      constructor
      · simpa [beq_iff_eq, or_assoc] using hrole
      · rfl
  | null => simp [isValidMessage]
  | bool b => simp [isValidMessage]
  | num q => simp [isValidMessage]
  | str s => simp [isValidMessage]
  | arr l => simp [isValidMessage]

/-- Claim C9 (amended): the chat body is accepted exactly when `messages`
is an array of objects whose `role` is one of user, assistant, system or
data and whose `content` is a string, with at least one element; the last
element's role is not constrained to be `user`, and the roles `system` and
`data` are accepted. -/
theorem chatBodySchema_spec (j : Json) :
    chatBodySchema j = true ↔
      ∃ fields msgs,
        j = Json.obj fields ∧
        lookupField fields "messages" = some (Json.arr msgs) ∧
        1 ≤ msgs.length ∧
        ∀ m ∈ msgs, ∃ mfields role content,
          m = Json.obj mfields ∧
          lookupField mfields "role" = some (Json.str role) ∧
          (role = "user" ∨ role = "assistant" ∨ role = "system" ∨
            role = "data") ∧
          lookupField mfields "content" = some (Json.str content) := by
  cases j with
  | obj fields =>
    constructor
    · intro h
      simp only [chatBodySchema] at h
      cases hm : lookupField fields "messages" with
      | none => rw [hm] at h; cases h
      | some v =>
        cases v with
        | arr msgs =>
          rw [hm] at h
          simp only [Bool.and_eq_true, decide_eq_true_eq,
            List.all_eq_true] at h
          refine ⟨fields, msgs, rfl, hm, h.1, ?_⟩
          intro m hmem
          exact (isValidMessage_iff m).mp (h.2 m hmem)
        | null => rw [hm] at h; cases h
        | bool b => rw [hm] at h; cases h
        | num q => rw [hm] at h; cases h
        | str s => rw [hm] at h; cases h
        | obj o => rw [hm] at h; cases h
    · rintro ⟨fields', msgs, hj, hm, hlen, hall⟩
      cases hj
      simp only [chatBodySchema, hm, Bool.and_eq_true, decide_eq_true_eq,
        List.all_eq_true]
      refine ⟨hlen, ?_⟩
      intro m hmem
      exact (isValidMessage_iff m).mpr (hall m hmem)
  | null => simp [chatBodySchema]
  | bool b => simp [chatBodySchema]
  | num q => simp [chatBodySchema]
  | str s => simp [chatBodySchema]
  | arr l => simp [chatBodySchema]

/-- Claim C9 counterexample: a body whose only message has role `system`
(so the roles are not restricted to user/assistant, and the last element's
role is not `user`) is accepted by the schema, not rejected. -/
theorem chatBodySchema_counterexample :
    chatBodySchema (Json.obj [("messages", Json.arr
      [Json.obj [("role", Json.str "system"), ("content", Json.str "hi")]])])
      = true := by
  rfl

/-- Claim C10: the created reservation row is public exactly when the
request asked for a public file and the requesting user's role is ADMIN or
CONTRIBUTOR; for any other user the row is private regardless of the
requested flag. -/
theorem generateSignedUrl_public_role_gate
    (signUrl : String → Except String String) (fileName fileType : String)
    (fileSize : Nat) (isPublic : Bool) (user : UserRec) (db : Db)
    (uuid newId : String)
    (ht : allowedFileTypes.contains fileType = true)
    (hs : fileSize ≤ 2 * 1024 * 1024)
    (hu : user.id ≠ "") :
    ∃ file : FileRec,
      (generateSignedUrl signUrl fileName fileType fileSize isPublic user db
          uuid newId).1.files = db.files ++ [file] ∧
      file.userId = user.id ∧ file.status = FileStatus.PENDING ∧
      (file.isPublic = true ↔
        (isPublic = true ∧
          (user.role = Role.ADMIN ∨ user.role = Role.CONTRIBUTOR))) := by
  have h1 : (!(allowedFileTypes.contains fileType)) = false := by
    rw [ht]; rfl
  have h2 : ¬ (2 * 1024 * 1024 < fileSize) := Nat.not_lt.mpr hs
  have h3 : (user.id == "") = false := beq_eq_false_iff_ne.mpr hu
  refine ⟨{ id := newId,
            fileKey := "users/" ++ user.id ++ "/" ++ uuid ++ "-" ++ sanitizeFileName fileName,
            userId := user.id, mimeType := fileType, originalName := fileName,
            fileHash := none,
            isPublic := if isPublic then
                          (if user.role == Role.ADMIN || user.role == Role.CONTRIBUTOR
                            then true else false)
                        else false,
            status := FileStatus.PENDING }, ?_, rfl, rfl, ?_⟩
  · simp only [generateSignedUrl, h1, h2, h3]
    simp only [Bool.false_eq_true, if_false, if_neg h2]
    cases hsign : signUrl ("users/" ++ user.id ++ "/" ++ uuid ++ "-" ++ sanitizeFileName fileName) with
    | error e => rfl
    | ok url => rfl
  · cases isPublic with
    | false => simp
    | true =>
      cases hrole : user.role with
      | USER => simp [hrole]
      | ADMIN => simp [hrole]
      | CONTRIBUTOR => simp [hrole]

/-- Claim C10 witness: a plain USER requesting a public file gets a private
reservation row. -/
theorem generateSignedUrl_public_role_gate_witness :
    ∃ file : FileRec,
      (generateSignedUrl (fun _ => Except.ok "url") "a.txt" "text/plain" 10
          true { id := "u1", role := Role.USER }
          { files := [], documents := [] } "uuid1" "id1").1.files =
        ({ files := [], documents := [] } : Db).files ++ [file] ∧
      file.userId = ({ id := "u1", role := Role.USER } : UserRec).id ∧
      file.status = FileStatus.PENDING ∧
      (file.isPublic = true ↔
        (true = true ∧
          (({ id := "u1", role := Role.USER } : UserRec).role = Role.ADMIN ∨
           ({ id := "u1", role := Role.USER } : UserRec).role = Role.CONTRIBUTOR))) :=
  generateSignedUrl_public_role_gate (fun _ => Except.ok "url") "a.txt"
    "text/plain" 10 true { id := "u1", role := Role.USER }
    { files := [], documents := [] } "uuid1" "id1" (by decide) (by decide)
    (by decide)
